import Mathlib

/-!
# React Triage — verification of the aggregation/scoring/policy core

Shallow embedding of the `react-triage` CLI's pure core (the diagnosis
engine, exit-policy evaluator, dependency checker and the line-oriented
heuristic rules) translated from the TypeScript sources
(`src/types.ts`, `src/policy.ts`, `src/rules.ts`, `src/checks.ts`,
`src/vercel-rules/*.ts` and the diagnosis engine).

Modelling conventions:
* JavaScript strings are modelled as `List Char` (`JStr`); `String.split("\n")`
  becomes `splitOnNl`, `String.prototype.trim` becomes `jsTrim` (using the
  JS whitespace set), `String.prototype.includes` becomes `containsSub`.
* The regular-expression heuristics of the rules are translated as
  deterministic character scanners where the regex admits no observable
  backtracking, and through a small backtracking matcher (`RE`) where it does.
* JS numbers are modelled as `Int` where only integer arithmetic occurs and
  as `ℚ` for the single ratio computation in the scorer (doubles idealised
  as exact rationals).
* Effectful collaborators (file system, subprocesses) enter the model as
  explicit inputs: the embedded functions receive the already-gathered data
  (dependency maps, linter output, audit output) that the TypeScript code
  reads from the outside world.
-/

/-- JS string, modelled as its sequence of characters. -/
abbrev JStr := List Char

/-- `Severity` from `src/types.ts`:
`"critical" | "performance" | "best-practice" | "info"`. -/
inductive Severity where
  | critical
  | performance
  | bestPractice
  | info
deriving DecidableEq, Repr

/-- `VulnerabilitySeverity` from `src/types.ts`:
`"critical" | "high" | "moderate" | "low"`. -/
inductive VulnerabilitySeverity where
  | critical
  | high
  | moderate
  | low
deriving DecidableEq, Repr

/-- `TriageIssue` from `src/types.ts`. -/
structure TriageIssue where
  severity : Severity
  rule : JStr
  message : JStr
  help : Option JStr := none
  file : JStr
  line : Nat
  column : Nat
  url : Option JStr := none
deriving DecidableEq, Repr

/-- The `type` field of `DependencyIssue` from `src/types.ts`. -/
inductive DependencyIssueType where
  | versionMismatch
  | devInProd
  | duplicate
  | outdated
  | unused
deriving DecidableEq, Repr

/-- `DependencyIssue` from `src/types.ts`. -/
structure DependencyIssue where
  type : DependencyIssueType
  message : JStr
  severity : Severity
deriving DecidableEq, Repr

/-- `SecurityVulnerability` from `src/types.ts` (`cvssScore` idealised to `ℚ`). -/
structure SecurityVulnerability where
  id : Int
  package : JStr
  title : JStr
  severity : VulnerabilitySeverity
  url : JStr
  vulnerableVersions : JStr
  cwe : List JStr
  cvssScore : Option ℚ := none
deriving DecidableEq, Repr

/-- The `summary` field of `SecurityAuditResult` from `src/types.ts`. -/
structure SecuritySummary where
  total : Nat
  critical : Nat
  high : Nat
  moderate : Nat
  low : Nat
deriving DecidableEq, Repr

/-- `SecurityAuditResult` from `src/types.ts`. -/
structure SecurityAuditResult where
  vulnerabilities : List SecurityVulnerability
  summary : SecuritySummary
deriving DecidableEq, Repr

/-- `ProjectStats` from `src/types.ts`. -/
structure ProjectStats where
  reactVersion : Option JStr
  reactDomVersion : Option JStr
  nextVersion : Option JStr
  totalFiles : Nat
  clientComponents : Nat
  serverComponents : Nat
  largeFiles : List (JStr × Nat)
  strictMode : Bool
  jsxTransform : Option JStr
  target : Option JStr
deriving DecidableEq, Repr

/-- `ScanResult` from `src/types.ts`. -/
structure ScanResult where
  score : Int
  timeTaken : Int
  issues : List TriageIssue
  stats : ProjectStats
  dependencyIssues : List DependencyIssue
  securityAudit : SecurityAuditResult
deriving DecidableEq, Repr

/-! ## Exit-policy evaluation (`src/policy.ts`) -/

/-- `securityToIssueSeverity` table from `src/policy.ts` lines 12-17. -/
def securityToIssueSeverity : VulnerabilitySeverity → Severity
  | .critical => .critical
  | .high => .performance
  | .moderate => .bestPractice
  | .low => .info

/-- `matchesSeverity` from `src/policy.ts`: exact equality. -/
def matchesSeverity (found failOn : Severity) : Bool :=
  found == failOn

/-- `FailOnPolicyResult` from `src/policy.ts` (the
`Record<Severity, number>` field modelled as a function). -/
structure FailOnPolicyResult where
  shouldFail : Bool
  failOn : Severity
  issueMatches : Nat
  dependencyMatches : Nat
  vulnerabilityMatches : Nat
  totalMatches : Nat
  matchedBySeverity : Severity → Nat

/-- `matchedBySeverity[s] += 1` on a `Severity → Nat` map. -/
def bumpSeverity (m : Severity → Nat) (s : Severity) : Severity → Nat :=
  fun t => if t = s then m t + 1 else m t

/-- `evaluateFailOnPolicy` from `src/policy.ts` lines 33-89.
The `Severity | null` argument is an `Option`; every `Severity` string value
is truthy in JS, so `if (!failOn)` is exactly the `none` test. -/
def evaluateFailOnPolicy (result : ScanResult) (failOn : Option Severity) :
    Option FailOnPolicyResult :=
  match failOn with
  | none => none
  | some failOn =>
    let issueMatches :=
      (result.issues.filter (fun issue => matchesSeverity issue.severity failOn)).length
    let dependencyMatches :=
      (result.dependencyIssues.filter (fun issue => matchesSeverity issue.severity failOn)).length
    let vulnerabilityMatches :=
      (result.securityAudit.vulnerabilities.filter
        (fun vulnerability =>
          matchesSeverity (securityToIssueSeverity vulnerability.severity) failOn)).length
    let totalMatches := issueMatches + dependencyMatches + vulnerabilityMatches
    let m0 : Severity → Nat := fun _ => 0
    let m1 := result.issues.foldl
      (fun m issue =>
        if matchesSeverity issue.severity failOn then bumpSeverity m issue.severity else m) m0
    let m2 := result.dependencyIssues.foldl
      (fun m issue =>
        if matchesSeverity issue.severity failOn then bumpSeverity m issue.severity else m) m1
    let m3 := result.securityAudit.vulnerabilities.foldl
      (fun m vulnerability =>
        let mappedSeverity := securityToIssueSeverity vulnerability.severity
        if matchesSeverity mappedSeverity failOn then bumpSeverity m mappedSeverity else m) m2
    some
      { shouldFail := decide (totalMatches > 0)
        failOn := failOn
        issueMatches := issueMatches
        dependencyMatches := dependencyMatches
        vulnerabilityMatches := vulnerabilityMatches
        totalMatches := totalMatches
        matchedBySeverity := m3 }

/-- A scan result with empty content, mirroring `createScanResult` in
`tests/fail-on-policy.test.ts`; used to instantiate hypotheses at
concrete inputs. -/
def baseScanResult : ScanResult :=
  { score := 100
    timeTaken := 10
    issues := []
    stats :=
      { reactVersion := none
        reactDomVersion := none
        nextVersion := none
        totalFiles := 1
        clientComponents := 0
        serverComponents := 0
        largeFiles := []
        strictMode := true
        jsxTransform := none
        target := none }
    dependencyIssues := []
    securityAudit :=
      { vulnerabilities := []
        summary := { total := 0, critical := 0, high := 0, moderate := 0, low := 0 } } }

/-- A high-severity vulnerability, as in the
"maps high vulnerabilities to performance severity" test of
`tests/fail-on-policy.test.ts`. -/
def highVuln : SecurityVulnerability :=
  { id := 1
    package := "foo".data
    title := "high vuln".data
    severity := .high
    url := []
    vulnerableVersions := "*".data
    cwe := []
    cvssScore := none }

/-- The concrete outcome of evaluating the critical fail-on policy against
`baseScanResult`. -/
def basePolicyOutcome : FailOnPolicyResult :=
  { shouldFail := false
    failOn := .critical
    issueMatches := 0
    dependencyMatches := 0
    vulnerabilityMatches := 0
    totalMatches := 0
    matchedBySeverity := fun _ => 0 }

/-! ## Scoring and aggregation (`src/rules.ts` and the diagnosis engine) -/

/-- `SCORE_PENALTIES` from `src/rules.ts` lines 100-105. -/
def SCORE_PENALTIES : Severity → Int
  | .critical => 10
  | .performance => 3
  | .bestPractice => 1
  | .info => 0

/-- Truthiness of a JS `string | null` value: `null` and `""` are falsy. -/
def jsTruthyStr (o : Option JStr) : Bool :=
  match o with
  | none => false
  | some s => !s.isEmpty

/-- `calculateScore` from the diagnosis engine (lines 29-68).
All arithmetic is integral except for the client-component ratio, where the
JS double division and the literals `0.8` / `0.6` are idealised as exact
rationals; since the running score stays integral, the final `Math.round`
is the identity and only the clamp `Math.max(0, Math.min(100, score))`
remains. -/
def calculateScore (issues : List TriageIssue) (depIssues : List DependencyIssue)
    (securityAudit : SecurityAuditResult) (stats : ProjectStats) : Int :=
  let score0 : Int := 100
  let score1 := issues.foldl (fun score issue => score - SCORE_PENALTIES issue.severity) score0
  let score2 := depIssues.foldl (fun score dep => score - SCORE_PENALTIES dep.severity) score1
  let score3 := score2 - (securityAudit.summary.critical : Int) * 15
    - (securityAudit.summary.high : Int) * 8
    - (securityAudit.summary.moderate : Int) * 3
    - (securityAudit.summary.low : Int) * 1
  let score4 :=
    if jsTruthyStr stats.nextVersion then
      let total := stats.clientComponents + stats.serverComponents
      if total > 0 then
        let ratio : ℚ := (stats.clientComponents : ℚ) / (total : ℚ)
        if ratio > 8 / 10 then score3 - 5
        else if ratio > 6 / 10 then score3 - 2
        else score3
      else score3
    else score3
  max 0 (min 100 score4)

/-- Total per-finding penalty of a list of issues. -/
def issuePenaltyTotal (issues : List TriageIssue) : Int :=
  (issues.map (fun issue => SCORE_PENALTIES issue.severity)).sum

/-- Total per-issue penalty of a list of dependency issues. -/
def depPenaltyTotal (depIssues : List DependencyIssue) : Int :=
  (depIssues.map (fun dep => SCORE_PENALTIES dep.severity)).sum

/-- Total security penalty: critical ×15, high ×8, moderate ×3, low ×1. -/
def securityPenalty (securityAudit : SecurityAuditResult) : Int :=
  (securityAudit.summary.critical : Int) * 15 + (securityAudit.summary.high : Int) * 8
    + (securityAudit.summary.moderate : Int) * 3 + (securityAudit.summary.low : Int) * 1

/-- The conditional client-component-ratio penalty of `calculateScore`:
5 when the project has a (truthy) Next.js version and the client ratio
exceeds 0.8, 2 when it exceeds 0.6, otherwise 0. -/
def clientRatioPenalty (stats : ProjectStats) : Int :=
  if jsTruthyStr stats.nextVersion then
    let total := stats.clientComponents + stats.serverComponents
    if total > 0 then
      let ratio : ℚ := (stats.clientComponents : ℚ) / (total : ℚ)
      if ratio > 8 / 10 then 5
      else if ratio > 6 / 10 then 2
      else 0
    else 0
  else 0

/-- The score formula exactly as the claim words it: start at 100, subtract
finding, dependency and security penalties, clamp — with no
client-component-ratio term at all. -/
def claimedScoreFormula (issues : List TriageIssue) (depIssues : List DependencyIssue)
    (securityAudit : SecurityAuditResult) : Int :=
  max 0 (min 100 (100 - issuePenaltyTotal issues - depPenaltyTotal depIssues
    - securityPenalty securityAudit))

/-- The `empty` audit result of `runSecurityAudit` in `src/security.ts`. -/
def emptySecurityAudit : SecurityAuditResult :=
  { vulnerabilities := []
    summary := { total := 0, critical := 0, high := 0, moderate := 0, low := 0 } }

/-- Project stats of a Next.js project whose components are 9 client / 1
server (client ratio 0.9). -/
def statsHighClientRatio : ProjectStats :=
  { reactVersion := none
    reactDomVersion := none
    nextVersion := some ['1', '4']
    totalFiles := 10
    clientComponents := 9
    serverComponents := 1
    largeFiles := []
    strictMode := true
    jsxTransform := none
    target := none }

/-- A critical finding, as produced by the `rules-of-hooks` classification. -/
def sampleCriticalIssue : TriageIssue :=
  { severity := .critical
    rule := "rules-of-hooks".data
    message := "err".data
    file := "src/a.tsx".data
    line := 1
    column := 1 }

/-- A performance finding, as produced by the `no-img-element` classification. -/
def samplePerformanceIssue : TriageIssue :=
  { severity := .performance
    rule := "no-img-element".data
    message := "err".data
    file := "src/a.tsx".data
    line := 2
    column := 1 }

/-! ## The diagnosis engine's aggregation step -/

/-- The shape returned by `runOxlintScan` (`src/scanner.ts`): parsed issues
plus the `number_of_files` count the linter reported. -/
structure OxlintScanResult where
  issues : List TriageIssue
  fileCount : Nat
deriving DecidableEq, Repr

/-- The shape returned by `checkTsConfig` (`src/checks.ts` lines 107-195). -/
structure TsConfigCheckResult where
  issues : List TriageIssue
  strictMode : Bool
  jsxTransform : Option JStr
  target : Option JStr
deriving DecidableEq, Repr

/-- The `severityOrder` table of the diagnosis engine (lines 107-112):
critical 0, performance 1, best-practice 2, info 3. -/
def severityOrder : Severity → Nat
  | .critical => 0
  | .performance => 1
  | .bestPractice => 2
  | .info => 3

/-- The order the diagnosis engine's comparator
`severityOrder[a.severity] - severityOrder[b.severity]` induces. -/
def sevLE (a b : TriageIssue) : Prop :=
  severityOrder a.severity ≤ severityOrder b.severity

instance : DecidableRel sevLE :=
  fun a b => Nat.decLe (severityOrder a.severity) (severityOrder b.severity)

instance : IsTotal TriageIssue sevLE :=
  ⟨fun a b => Nat.le_total (severityOrder a.severity) (severityOrder b.severity)⟩

instance : IsTrans TriageIssue sevLE :=
  ⟨fun _ _ _ hab hbc => Nat.le_trans hab hbc⟩

/-- The pure aggregation step of `diagnose` (lines 89-130): merge the
tsconfig data into the stats, concatenate the five issue streams, sort them
by severity ordinal (JS `Array.prototype.sort` is guaranteed stable since
ES2019, modelled by the stable `List.insertionSort`), fall back to the
stats sweep's file count when the linter reported zero files, and score.
The awaited collaborator results and the elapsed time are parameters. -/
def diagnoseAggregate (oxlintResult : OxlintScanResult) (depIssues : List DependencyIssue)
    (tsConfigResult : TsConfigCheckResult) (projectStats : ProjectStats)
    (asyncIssues consoleIssues vercelIssues : List TriageIssue)
    (securityAudit : SecurityAuditResult) (timeTaken : Int) : ScanResult :=
  let stats0 : ProjectStats :=
    { projectStats with
        strictMode := tsConfigResult.strictMode
        jsxTransform := tsConfigResult.jsxTransform
        target := tsConfigResult.target }
  let allIssues := oxlintResult.issues ++ tsConfigResult.issues ++ asyncIssues
    ++ consoleIssues ++ vercelIssues
  let sortedIssues := List.insertionSort sevLE allIssues
  let stats :=
    if oxlintResult.fileCount = 0 then
      { stats0 with totalFiles := projectStats.totalFiles }
    else stats0
  let score := calculateScore sortedIssues depIssues securityAudit stats
  { score := score
    timeTaken := timeTaken
    issues := sortedIssues
    stats := stats
    dependencyIssues := depIssues
    securityAudit := securityAudit }

/-- Project stats whose own sweep counted 42 files. -/
def statsWith42Files : ProjectStats :=
  { baseScanResult.stats with totalFiles := 42 }

/-- A tsconfig check result with no issues. -/
def tsConfigDefault : TsConfigCheckResult :=
  { issues := [], strictMode := true, jsxTransform := none, target := none }

/-! ## JS string primitives -/

/-- The JS whitespace set: the characters matched by `\s` (which is also the
set `String.prototype.trim` strips). -/
def jsSpace (c : Char) : Bool :=
  c == ' ' || c == '\t' || c == '\n' || c == '\r' || c == '\x0b' || c == '\x0c' ||
  c == '\u00A0' || c == '\u1680' ||
  (decide ('\u2000' ≤ c) && decide (c ≤ '\u200A')) ||
  c == '\u2028' || c == '\u2029' || c == '\u202F' || c == '\u205F' ||
  c == '\u3000' || c == '\uFEFF'

/-- JS `\w`: `[A-Za-z0-9_]`. -/
def isWordChar (c : Char) : Bool :=
  (decide ('a' ≤ c) && decide (c ≤ 'z')) || (decide ('A' ≤ c) && decide (c ≤ 'Z')) ||
  (decide ('0' ≤ c) && decide (c ≤ '9')) || c == '_'

/-- `[A-Z]`. -/
def isUpperAZ (c : Char) : Bool :=
  decide ('A' ≤ c) && decide (c ≤ 'Z')

/-- ASCII lower-casing of a string, modelling how the `/i` flag matches the
ASCII-only patterns used by the rules. -/
def lowerStr (s : JStr) : JStr :=
  s.map Char.toLower

/-- JS `String.prototype.trim`. -/
def jsTrim (s : JStr) : JStr :=
  ((s.dropWhile jsSpace).reverse.dropWhile jsSpace).reverse

/-- JS `content.split("\n")`. -/
def splitOnNl : JStr → List JStr
  | [] => [[]]
  | c :: rest =>
    let tail := splitOnNl rest
    if c = '\n' then [] :: tail
    else
      match tail with
      | [] => [[c]]
      | l :: ls => (c :: l) :: ls

/-- JS `hay.includes(needle)`. -/
def containsSub (hay needle : JStr) : Bool :=
  match hay with
  | [] => needle.isPrefixOf ([] : JStr)
  | c :: rest => needle.isPrefixOf (c :: rest) || containsSub rest needle

/-! ## The `async-parallel` rule (`src/vercel-rules/async-parallel.ts`) -/

/-- The prefix test `/^(?:const|let|var)\s+(\w+)\s*=\s*await\s+/` applied to a
(trimmed) line, returning the captured variable name.  None of the regex's
quantified classes can backtrack observably (each is followed by a token
outside its class, and no keyword alternative is a prefix of another), so the
scan is deterministic. -/
def awaitAssignVar (line : JStr) : Option JStr :=
  let afterKw : Option JStr :=
    if ("const".data).isPrefixOf line then some (line.drop 5)
    else if ("let".data).isPrefixOf line then some (line.drop 3)
    else if ("var".data).isPrefixOf line then some (line.drop 3)
    else none
  match afterKw with
  | none => none
  | some rest =>
    match rest with
    | [] => none
    | c :: rest1 =>
      if jsSpace c then
        let rest2 := rest1.dropWhile jsSpace
        let v := rest2.takeWhile isWordChar
        if v.isEmpty then none
        else
          match (rest2.drop v.length).dropWhile jsSpace with
          | '=' :: rest4 =>
            let rest5 := rest4.dropWhile jsSpace
            if ("await".data).isPrefixOf rest5 then
              match rest5.drop 5 with
              | c2 :: _ => if jsSpace c2 then some v else none
              | [] => none
            else none
          | _ => none
      else none

/-- The reference URL of the `async-parallel` rule. -/
def asyncParallelUrl : JStr :=
  ("https://github.com/vercel-labs/agent-skills/blob/main/skills/react-best-practices/rules/async-parallel.md").data

/-- One iteration of the `async-parallel` loop body for 0-based line index
`i`: both the current and the next line (trimmed) must match the
await-assignment pattern, and the next line must not contain the first
variable's name. -/
def asyncParallelIssueAt (filePath : JStr) (i : Nat) (line nextLine : JStr) :
    Option TriageIssue :=
  match awaitAssignVar (jsTrim line), awaitAssignVar (jsTrim nextLine) with
  | some firstVar, some secondVar =>
    if containsSub (jsTrim nextLine) firstVar then none
    else some
      { severity := .critical
        rule := ("async-parallel").data
        message := ("Sequential independent awaits — use Promise.all([").data ++ firstVar
          ++ (", ").data ++ secondVar ++ ("]) instead").data
        help := some ("Independent async operations should run in parallel with Promise.all()").data
        file := filePath
        line := i + 1
        column := 1
        url := some asyncParallelUrl }
  | _, _ => none

/-- The `for (let i = 0; i < lines.length - 1; i++)` loop of the rule,
walking over consecutive line pairs. -/
def asyncParallelPairs (filePath : JStr) : Nat → List JStr → List TriageIssue
  | i, a :: b :: rest =>
    (asyncParallelIssueAt filePath i a b).toList ++ asyncParallelPairs filePath (i + 1) (b :: rest)
  | _, _ => []

/-- `asyncParallel.check` from `src/vercel-rules/async-parallel.ts` lines 15-55. -/
def asyncParallelCheck (filePath content : JStr) : List TriageIssue :=
  asyncParallelPairs filePath 0 (splitOnNl content)

/-! ## The dependency checker (`checkDependencies`) -/

/-- `version.replace(/[\^~>=<]*/g, "")`: the global replace deletes every
occurrence of the five range-operator characters. -/
def stripRangeOperators (s : JStr) : JStr :=
  s.filter (fun c => !(c == '^' || c == '~' || c == '>' || c == '=' || c == '<'))

/-- `HEAVY_DEV_ONLY_PACKAGES` from `checkDependencies`. -/
def HEAVY_DEV_ONLY_PACKAGES : List JStr :=
  [("@faker-js/faker").data, ("faker").data, ("storybook").data, ("@storybook/react").data,
   ("@testing-library/react").data, ("@testing-library/jest-dom").data, ("jest").data,
   ("vitest").data, ("cypress").data, ("playwright").data, ("msw").data, ("ts-node").data,
   ("nodemon").data, ("webpack-dev-server").data]

/-- A `package.json` dependency section: name → version-range entries in
object-key order. -/
structure PackageManifest where
  dependencies : List (JStr × JStr)
  devDependencies : List (JStr × JStr)
deriving DecidableEq, Repr

/-- `deps[name]`: `undefined` when the key is absent. -/
def lookupDep (deps : List (JStr × JStr)) (name : JStr) : Option JStr :=
  (deps.find? (fun p => p.1 == name)).map (fun p => p.2)

/-- The version-mismatch issue `checkDependencies` pushes for versions `r`
(react) and `d` (react-dom). -/
def versionMismatchIssue (r d : JStr) : DependencyIssue :=
  { type := .versionMismatch
    message := ("react (").data ++ r ++ (") and react-dom (").data ++ d
      ++ (") versions don\x27t match").data
    severity := .critical }

/-- Step 1 of `checkDependencies`: `if (deps.react && deps["react-dom"])`
(JS truthiness: an absent key or an empty version string is falsy), compare
the two versions after stripping range operators, flag mismatch as
critical. -/
def versionMismatchIssues (deps : List (JStr × JStr)) : List DependencyIssue :=
  match lookupDep deps ("react").data, lookupDep deps ("react-dom").data with
  | some r, some d =>
    if r.isEmpty || d.isEmpty then []
    else if stripRangeOperators r = stripRangeOperators d then []
    else [versionMismatchIssue r d]
  | _, _ => []

/-- The per-key loop over `Object.keys(deps)` of `checkDependencies`
(`src/unnamed/part_000` lines 269-285): heavy packages in production
dependencies, then unused production dependencies. -/
def depKeyIssues (usedPackages : List JStr) : List (JStr × JStr) → List DependencyIssue
  | [] => []
  | (name, _) :: rest =>
    (if HEAVY_DEV_ONLY_PACKAGES.contains name then
      [{ type := .devInProd
         message := ("\"").data ++ name ++ ("\" should be in devDependencies, not dependencies").data
         severity := .performance }]
     else []) ++
    (if !usedPackages.contains name then
      [{ type := .unused
         message := ("\"").data ++ name ++ ("\" appears unused in dependencies").data
         severity := .performance }]
     else []) ++
    depKeyIssues usedPackages rest

/-- The loop over `Object.keys(devDeps)`: unused dev dependencies. -/
def devDepKeyIssues (usedPackages : List JStr) : List (JStr × JStr) → List DependencyIssue
  | [] => []
  | (name, _) :: rest =>
    (if !usedPackages.contains name then
      [{ type := .unused
         message := ("\"").data ++ name ++ ("\" appears unused in devDependencies").data
         severity := .bestPractice }]
     else []) ++
    devDepKeyIssues usedPackages rest

/-- `/\breact@\d/.test(line)`: scan tracking whether the current position
sits at a word boundary. -/
def reactAtMatch : Bool → JStr → Bool
  | _, [] => false
  | boundary, c :: rest =>
    (boundary && ("react@").data.isPrefixOf (c :: rest) &&
      (match (c :: rest).drop 6 with
       | d :: _ => d.isDigit
       | [] => false)) ||
    reactAtMatch (!isWordChar c) rest

/-- The duplicate-React count: lines of the `bun pm ls --all` output matching
`/\breact@\d/`. -/
def duplicateReactCount (pmLsOutput : JStr) : Nat :=
  ((splitOnNl pmLsOutput).filter (fun line => reactAtMatch true line)).length

/-- `checkDependencies` from `src/unnamed/part_000` lines 235-322 (the
version in `src/checks.ts` lines 33-103 is the same minus the unused-package
loops).  The file-system sweep's result (`usedPackages`) and the
`bun pm ls --all` stdout are parameters, since the TypeScript code obtains
them from the outside world; a missing or unparsable `package.json` returns
`[]` before this logic runs and is not modelled. -/
def checkDependenciesPure (pkg : PackageManifest) (usedPackages : List JStr)
    (pmLsOutput : JStr) : List DependencyIssue :=
  versionMismatchIssues pkg.dependencies ++
  depKeyIssues usedPackages pkg.dependencies ++
  devDepKeyIssues usedPackages pkg.devDependencies ++
  (if duplicateReactCount pmLsOutput > 1 then
    [{ type := .duplicate
       message := ("Multiple React installations detected (").data
         ++ (toString (duplicateReactCount pmLsOutput)).data
         ++ (" found) — this causes hooks errors").data
       severity := .critical }]
   else [])

/-- The version-mismatch issues among a dependency checker's output. -/
def versionMismatchesOf (issues : List DependencyIssue) : List DependencyIssue :=
  issues.filter (fun i => i.type == .versionMismatch)

/-- The manifest of spec scenario 3: react `^18.2.0`, react-dom `~18.1.0`. -/
def mismatchManifest : PackageManifest :=
  { dependencies := [((("react").data), (("^18.2.0").data)),
                     ((("react-dom").data), (("~18.1.0").data))]
    devDependencies := [] }

/-- A manifest that declares react with an empty version string and
react-dom with version `18`. -/
def emptyVersionManifest : PackageManifest :=
  { dependencies := [((("react").data), ([] : JStr)),
                     ((("react-dom").data), (("18").data))]
    devDependencies := [] }

/-- A manifest that declares react but not react-dom. -/
def reactOnlyManifest : PackageManifest :=
  { dependencies := [((("react").data), (("^18.2.0").data))]
    devDependencies := [] }

/-! ## The `server-auth-actions` rule (`src/vercel-rules/server-auth-actions.ts`) -/

/-- `'use server'` (single quotes). -/
def useServerSingle : JStr := ("\x27use server\x27").data

/-- `"use server"` (double quotes). -/
def useServerDouble : JStr := ("\"use server\"").data

/-- One callback invocation of the `isFileLevel` `.some(...)` test
(lines 26-30): blank and comment lines return `false` but keep consuming
raw line indices; a qualifying line must sit at raw index `< 5` and be
exactly the directive after trimming. -/
def isFileLevelGo : Nat → List JStr → Bool
  | _, [] => false
  | idx, line :: rest =>
    (if (jsTrim line).isEmpty || ("//").data.isPrefixOf (jsTrim line)
        || ("/*").data.isPrefixOf (jsTrim line) then false
     else decide (idx < 5) &&
       (jsTrim line == useServerSingle || jsTrim line == useServerDouble)) ||
    isFileLevelGo (idx + 1) rest

/-- The `isFileLevel` test of `serverAuthActions.check`. -/
def isFileLevelUseServer (lines : List JStr) : Bool :=
  isFileLevelGo 0 lines

/-- What the claim's wording asks for instead: the directive appears
(file-level, after trimming) among the first 5 non-blank lines. -/
def specFileLevelUseServer (lines : List JStr) : Bool :=
  ((lines.filter (fun l => !(jsTrim l).isEmpty)).take 5).any
    (fun l => jsTrim l == useServerSingle || jsTrim l == useServerDouble)

/-- `kw` as a literal prefix, returning the rest. -/
def dropKw (kw s : JStr) : Option JStr :=
  if kw.isPrefixOf s then some (s.drop kw.length) else none

/-- `\s+` as a prefix (at least one JS space, then greedily all of them). -/
def dropSpaces1 : JStr → Option JStr
  | c :: rest => if jsSpace c then some (rest.dropWhile jsSpace) else none
  | [] => none

/-- `/export\s+async\s+function\s+(\w+)/` anchored at the start of `s`,
returning capture group 1.  Each `\s+` is followed by a literal whose first
character is not a space and `(\w+)` ends the pattern, so the scan is
deterministic. -/
def exportAsyncFnAt (s : JStr) : Option JStr :=
  match dropKw ("export").data s with
  | none => none
  | some s1 =>
    match dropSpaces1 s1 with
    | none => none
    | some s2 =>
      match dropKw ("async").data s2 with
      | none => none
      | some s3 =>
        match dropSpaces1 s3 with
        | none => none
        | some s4 =>
          match dropKw ("function").data s4 with
          | none => none
          | some s5 =>
            match dropSpaces1 s5 with
            | none => none
            | some s6 =>
              let name := s6.takeWhile isWordChar
              if name.isEmpty then none else some name

/-- `line.match(/export\s+async\s+function\s+(\w+)/)`: leftmost match. -/
def exportAsyncFn : JStr → Option JStr
  | [] => none
  | c :: rest =>
    match exportAsyncFnAt (c :: rest) with
    | some name => some name
    | none => exportAsyncFn rest

/-- The mutation-verb alternatives of
`/(?:create|update|delete|remove|add|submit|save|modify|edit|insert)/i`. -/
def MUTATION_VERBS : List JStr :=
  [("create").data, ("update").data, ("delete").data, ("remove").data, ("add").data,
   ("submit").data, ("save").data, ("modify").data, ("edit").data, ("insert").data]

/-- `mutationPatterns.test(fnName)`: case-insensitive substring search. -/
def mutationTest (name : JStr) : Bool :=
  MUTATION_VERBS.any (fun v => containsSub (lowerStr name) v)

/-- The alternatives of
`/(?:auth|session|verify|getUser|getSession|getCurrentUser|checkAuth|requireAuth)/i`,
lower-cased since the flag is case-insensitive. -/
def AUTH_TOKENS : List JStr :=
  [("auth").data, ("session").data, ("verify").data, ("getuser").data, ("getsession").data,
   ("getcurrentuser").data, ("checkauth").data, ("requireauth").data]

/-- `authPatterns.test(line)`. -/
def authTest (line : JStr) : Bool :=
  AUTH_TOKENS.any (fun t => containsSub (lowerStr line) t)

/-- `/^export\s/.test(trimmed)`. -/
def exportStart (trimmed : JStr) : Bool :=
  ("export").data.isPrefixOf trimmed &&
    (match trimmed.drop 6 with
     | c :: _ => jsSpace c
     | [] => false)

/-- The body scan of lines `i+1 ..< min(i+30, lines.length)` (lines 47-57):
an auth token sets `hasAuth`; a later line (`j > i+1`) whose trimmed form
starts a new `export` stops the scan first. -/
def authScanGo (lines : List JStr) (i : Nat) : Nat → Nat → Bool
  | 0, _ => false
  | fuel + 1, j =>
    let lj := lines.getD j []
    if authTest lj then true
    else if decide (j > i + 1) && exportStart (jsTrim lj) then false
    else authScanGo lines i fuel (j + 1)

/-- `hasAuth` for the exported async function found at 0-based line `i`. -/
def authScan (lines : List JStr) (i : Nat) : Bool :=
  authScanGo lines i (min (i + 30) lines.length - (i + 1)) (i + 1)

/-- The reference URL of the `server-auth-actions` rule. -/
def serverAuthUrl : JStr :=
  ("https://github.com/vercel-labs/agent-skills/blob/main/skills/react-best-practices/rules/server-auth-actions.md").data

/-- The issue pushed for the unauthenticated server action `fnName` at
0-based line `i`. -/
def serverAuthIssue (filePath fnName : JStr) (i : Nat) : TriageIssue :=
  { severity := .critical
    rule := ("server-auth-actions").data
    message := ("Server Action \"").data ++ fnName
      ++ ("\" has no authentication check — it\x27s a public endpoint").data
    help := some ("Add auth verification (e.g. verifySession()) at the start of the action").data
    file := filePath
    line := i + 1
    column := 1
    url := some serverAuthUrl }

/-- One iteration of the main loop of `serverAuthActions.check` at 0-based
line index `i`. -/
def serverAuthIssueAt (filePath : JStr) (lines : List JStr) (i : Nat) : Option TriageIssue :=
  match exportAsyncFn (lines.getD i []) with
  | none => none
  | some fnName =>
    if !mutationTest fnName then none
    else if authScan lines i then none
    else some (serverAuthIssue filePath fnName i)

/-- `serverAuthActions.check` from `src/vercel-rules/server-auth-actions.ts`
lines 15-74. -/
def serverAuthCheck (filePath content : JStr) : List TriageIssue :=
  if !(containsSub content useServerSingle || containsSub content useServerDouble) then []
  else
    let lines := splitOnNl content
    if !isFileLevelUseServer lines then []
    else (List.range lines.length).filterMap (fun i => serverAuthIssueAt filePath lines i)

/-- A server-action file whose `'use server'` directive sits after five
blank lines: the first non-blank line, but raw line index 5. -/
def blankPaddedServerContent : JStr :=
  ("\n\n\n\n\n\x27use server\x27\nexport async function deleteUser() \x7b\n  return 1;\n\x7d").data

/-- A server-action file with a file-level directive and an unauthenticated
`createItem` action. -/
def unauthedServerContent : JStr :=
  ("\x27use server\x27\nexport async function createItem() \x7b\n  return db.push();\n\x7d").data

/-! ## A small backtracking regex core

`compositionBooleanProps` tests lines against
`/(?:interface|type)\s+\w*[Pp]rops\w*\s*(?:extends[^{]*)?\{|(?:interface|type)\s+\w*[Pp]rops\w*\s*=/`,
whose `\w*[Pp]rops\w*` needs genuine backtracking over the split point.
The matcher below implements standard leftmost backtracking with greedy
quantifiers (quantifiers restricted to character classes, as in the regex),
which is exactly the JS engine's semantics for this capture-free pattern. -/

/-- Regex syntax: literals, character classes, sequencing, ordered
alternation, greedy option and greedy star over a character class. -/
inductive RE where
  | lit : JStr → RE
  | cls : (Char → Bool) → RE
  | seq : RE → RE → RE
  | alt : RE → RE → RE
  | opt : RE → RE
  | many : (Char → Bool) → RE

/-- Greedy star: try consuming `n` class characters first, then fewer. -/
def reManyGo (end? : JStr → Bool) : Nat → JStr → Bool
  | 0, s => end? s
  | n + 1, s => end? (s.drop (n + 1)) || reManyGo end? n s

/-- CPS backtracking matcher: `reRun r s k` holds iff some prefix of `s`
matched by `r` leaves a rest accepted by `k`, trying possibilities in the
JS engine's order. -/
def reRun : RE → JStr → (JStr → Bool) → Bool
  | .lit cs, s, k => cs.isPrefixOf s && k (s.drop cs.length)
  | .cls p, s, k =>
    match s with
    | c :: rest => p c && k rest
    | [] => false
  | .seq a b, s, k => reRun a s (fun s1 => reRun b s1 k)
  | .alt a b, s, k => reRun a s k || reRun b s k
  | .opt a, s, k => reRun a s k || k s
  | .many p, s, k => reManyGo k (s.takeWhile p).length s

/-- `RegExp.prototype.test` without anchors: try every start position,
left to right. -/
def reTest (r : RE) : JStr → Bool
  | [] => reRun r [] (fun _ => true)
  | c :: rest => reRun r (c :: rest) (fun _ => true) || reTest r rest

/-- `⟨r₁, …, rₙ⟩` in sequence. -/
def reSeq (rs : List RE) : RE :=
  rs.foldr .seq (.lit [])

/-- `(?:class)+` = one class character, then greedily more. -/
def rePlus (p : Char → Bool) : RE :=
  .seq (.cls p) (.many p)

/-! ## The `composition-boolean-props` rule
(appended to `src/vercel-rules/client-swr-dedup.ts`, lines 150-225) -/

/-- `(?:interface|type)`. -/
def kwAlt : RE :=
  .alt (.lit ("interface").data) (.lit ("type").data)

/-- The shared head `(?:interface|type)\s+\w*[Pp]rops\w*\s*`. -/
def propsHead : List RE :=
  [kwAlt, rePlus jsSpace, .many isWordChar, .cls (fun c => c == 'P' || c == 'p'),
   .lit ("rops").data, .many isWordChar, .many jsSpace]

/-- `propsOpenRegex` from the rule. -/
def propsOpenRE : RE :=
  .alt
    (reSeq (propsHead ++
      [.opt (.seq (.lit ("extends").data) (.many (fun c => !(c == '\x7b')))),
       .lit ['\x7b']]))
    (reSeq (propsHead ++ [.lit ['=']]))

/-- `propsOpenRegex.test(line)`. -/
def propsLineTest (line : JStr) : Bool :=
  reTest propsOpenRE line

/-- The boolean-prefix alternatives of `boolPropRegex`. -/
def boolPrefixes : List JStr :=
  [("is").data, ("has").data, ("show").data, ("hide").data, ("enable").data,
   ("disable").data, ("with").data]

/-- One anchored attempt of
`\b(?:is|has|show|hide|enable|disable|with)[A-Z]\w*\s*\??\s*:\s*boolean`
(the `\b` is checked by the caller), returning the matched length.  No
alternative is a prefix of another and every quantified class is followed
by a character outside it, so the attempt is deterministic. -/
def boolPropAt (s : JStr) : Option Nat :=
  match boolPrefixes.findSome?
      (fun pre => if pre.isPrefixOf s then some pre.length else none) with
  | none => none
  | some plen =>
    match s.drop plen with
    | c :: rest1 =>
      if isUpperAZ c then
        let w := rest1.takeWhile isWordChar
        let s2 := rest1.drop w.length
        let sp1 := s2.takeWhile jsSpace
        let s3 := s2.drop sp1.length
        let q : Nat × JStr :=
          match s3 with
          | '?' :: r => (1, r)
          | _ => (0, s3)
        let sp2 := q.2.takeWhile jsSpace
        let s5 := q.2.drop sp2.length
        match s5 with
        | ':' :: r2 =>
          let sp3 := r2.takeWhile jsSpace
          let r3 := r2.drop sp3.length
          if ("boolean").data.isPrefixOf r3 then
            some (plen + 1 + w.length + sp1.length + q.1 + sp2.length + 1 + sp3.length + 7)
          else none
        | _ => none
      else none
    | [] => none

/-- `block.matchAll(boolPropRegex)`: scan left to right tracking the word
boundary; after a match, continue right after it (every match ends in the
word character `n`, so the next position is never a boundary).  The fuel is
the remaining length; every step consumes at least one character. -/
def boolPropScanGo : Nat → Bool → JStr → List JStr
  | 0, _, _ => []
  | fuel + 1, boundary, s =>
    match s with
    | [] => []
    | c :: rest =>
      if boundary then
        match boolPropAt (c :: rest) with
        | some len =>
          ((c :: rest).take len) :: boolPropScanGo fuel false ((c :: rest).drop len)
        | none => boolPropScanGo fuel (!isWordChar c) rest
      else boolPropScanGo fuel (!isWordChar c) rest

/-- The full matches `[...block.matchAll(boolPropRegex)]`, as strings. -/
def boolPropMatches (s : JStr) : List JStr :=
  boolPropScanGo s.length true s

/-- `m[0].split(/[\s?:]/)[0]`: the identifier at the front of a match. -/
def boolPropName (m : JStr) : JStr :=
  m.takeWhile (fun c => !(jsSpace c || c == '?' || c == ':'))

/-- `(l.match(/\{/g) ?? []).length` for an arbitrary character. -/
def countChar (c : Char) (l : JStr) : Nat :=
  (l.filter (fun x => x == c)).length

/-- The brace-matched block collection of `compositionBooleanProps.check`
(lines 183-193): push each line after updating the depth with its brace
counts; from the second line on, stop once the depth is ≤ 0.  The fuel is
`min 80 (lines.length - i)`, the loop's iteration bound. -/
def collectBlockGo : Nat → Int → Bool → List JStr → List JStr
  | 0, _, _, _ => []
  | _ + 1, _, _, [] => []
  | fuel + 1, depth, isFirst, l :: rest =>
    let d := depth + (countChar '\x7b' l : Int) - (countChar '\x7d' l : Int)
    if isFirst then l :: collectBlockGo fuel d false rest
    else if d ≤ 0 then [l]
    else l :: collectBlockGo fuel d false rest

/-- The joined block text starting at line `i`. -/
def propsBlockAt (lines : List JStr) (i : Nat) : JStr :=
  List.intercalate ['\n'] (collectBlockGo (min 80 (lines.length - i)) 0 true (lines.drop i))

/-- The reference URL of the `composition-boolean-props` rule. -/
def compositionBooleanPropsUrl : JStr :=
  ("https://github.com/vercel-labs/agent-skills/blob/main/skills/vercel-composition-patterns/rules/architecture-avoid-boolean-props.md").data

/-- One iteration of the line loop of `compositionBooleanProps.check`. -/
def boolPropsIssueAt (filePath : JStr) (lines : List JStr) (i : Nat) : Option TriageIssue :=
  if !propsLineTest (lines.getD i []) then none
  else
    let ms := boolPropMatches (propsBlockAt lines i)
    if 3 ≤ ms.length then
      some
        { severity := .bestPractice
          rule := ("composition-boolean-props").data
          message := (toString ms.length).data ++ (" boolean props detected (").data
            ++ List.intercalate ((", ").data) (ms.map boolPropName)
            ++ (") — use explicit variant components instead").data
          help := some ("Create separate ChannelComposer, ThreadComposer, EditComposer components rather than a single component with boolean switches").data
          file := filePath
          line := i + 1
          column := 1
          url := some compositionBooleanPropsUrl }
    else none

/-- `compositionBooleanProps.check`. -/
def compositionBooleanPropsCheck (filePath content : JStr) : List TriageIssue :=
  if !((".tsx").data.isSuffixOf filePath || (".jsx").data.isSuffixOf filePath) then []
  else
    let lines := splitOnNl content
    (List.range lines.length).filterMap (fun i => boolPropsIssueAt filePath lines i)

/-- A props interface with three boolean-prefixed boolean fields and one
non-boolean field (spec scenario 2). -/
def buttonPropsContent3 : JStr :=
  ("interface ButtonProps \x7b\n  isLoading: boolean;\n  isDisabled: boolean;\n  hasError: boolean;\n  label: string;\n\x7d").data

/-- The same props interface with only two boolean-prefixed fields. -/
def buttonPropsContent2 : JStr :=
  ("interface ButtonProps \x7b\n  isLoading: boolean;\n  isDisabled: boolean;\n  label: string;\n\x7d").data

/-! ## Lemmas and theorems -/

/-! ### Lemmas about the `matchedBySeverity` folds -/

theorem foldl_bump_ne {α : Type} (key : α → Severity) (fo t : Severity) (h : t ≠ fo) :
    ∀ (l : List α) (m : Severity → Nat),
      (l.foldl (fun m x => if matchesSeverity (key x) fo then bumpSeverity m (key x) else m) m) t
        = m t := by
  intro l
  induction l with
  | nil => intro m; rfl
  | cons a l ih =>
    intro m
    simp only [List.foldl_cons]
    by_cases hx : matchesSeverity (key a) fo
    · have hk : key a = fo := by simpa [matchesSeverity] using hx
      rw [if_pos hx, ih]
      simp [bumpSeverity, hk, h]
    · rw [if_neg hx, ih]

theorem foldl_bump_eq {α : Type} (key : α → Severity) (fo : Severity) :
    ∀ (l : List α) (m : Severity → Nat),
      (l.foldl (fun m x => if matchesSeverity (key x) fo then bumpSeverity m (key x) else m) m) fo
        = m fo + (l.filter (fun x => matchesSeverity (key x) fo)).length := by
  intro l
  induction l with
  | nil => intro m; simp
  | cons a l ih =>
    intro m
    simp only [List.foldl_cons, List.filter_cons]
    by_cases hx : matchesSeverity (key a) fo
    · have hk : key a = fo := by simpa [matchesSeverity] using hx
      rw [if_pos hx, ih, hk]
      simp [bumpSeverity, matchesSeverity]
      omega
    · rw [if_neg hx, ih]
      simp [hx]

/-! ### Exit-policy theorems -/

/-- C10: for every non-null result returned by `evaluateFailOnPolicy`, the
per-severity breakdown is zero at every severity other than the targeted
`failOn` severity, equals `totalMatches` at `failOn`, `totalMatches` is the
sum of the three match counts, and `shouldFail` holds exactly when
`totalMatches > 0`. -/
theorem C10_policy_breakdown_invariants (result : ScanResult)
    (failOn : Option Severity) (out : FailOnPolicyResult)
    (h : evaluateFailOnPolicy result failOn = some out) :
    (∀ s, s ≠ out.failOn → out.matchedBySeverity s = 0) ∧
    out.matchedBySeverity out.failOn = out.totalMatches ∧
    out.totalMatches = out.issueMatches + out.dependencyMatches + out.vulnerabilityMatches ∧
    (out.shouldFail = true ↔ 0 < out.totalMatches) := by
  match failOn with
  | none => simp [evaluateFailOnPolicy] at h
  | some fo =>
    simp only [evaluateFailOnPolicy, Option.some.injEq] at h
    subst h
    refine ⟨?_, ?_, rfl, by simp⟩
    · intro s hs
      simp only at hs ⊢
      rw [foldl_bump_ne (fun v : SecurityVulnerability => securityToIssueSeverity v.severity)
          fo s hs,
        foldl_bump_ne (fun d : DependencyIssue => d.severity) fo s hs,
        foldl_bump_ne (fun i : TriageIssue => i.severity) fo s hs]
    · simp only
      rw [foldl_bump_eq (fun v : SecurityVulnerability => securityToIssueSeverity v.severity) fo,
        foldl_bump_eq (fun d : DependencyIssue => d.severity) fo,
        foldl_bump_eq (fun i : TriageIssue => i.severity) fo]
      simp

/-- Witness for C10 at a concrete input. -/
theorem C10_policy_breakdown_invariants_witness :
    (∀ s, s ≠ basePolicyOutcome.failOn → basePolicyOutcome.matchedBySeverity s = 0) ∧
    basePolicyOutcome.matchedBySeverity basePolicyOutcome.failOn = basePolicyOutcome.totalMatches ∧
    basePolicyOutcome.totalMatches = basePolicyOutcome.issueMatches +
      basePolicyOutcome.dependencyMatches + basePolicyOutcome.vulnerabilityMatches ∧
    (basePolicyOutcome.shouldFail = true ↔ 0 < basePolicyOutcome.totalMatches) :=
  C10_policy_breakdown_invariants baseScanResult (some .critical) basePolicyOutcome rfl

/-- C3: `evaluateFailOnPolicy result none` is always `none`, and
`evaluateFailOnPolicy result (some S)` is a `some` outcome whose `shouldFail`
is `true` iff at least one issue, dependency issue, or severity-mapped
vulnerability has severity exactly `S`. -/
theorem C3_policy_none_and_exact_match :
    (∀ result : ScanResult, evaluateFailOnPolicy result none = none) ∧
    (∀ (result : ScanResult) (S : Severity), ∃ out,
      evaluateFailOnPolicy result (some S) = some out ∧
      (out.shouldFail = true ↔
        (∃ i ∈ result.issues, i.severity = S) ∨
        (∃ d ∈ result.dependencyIssues, d.severity = S) ∨
        (∃ v ∈ result.securityAudit.vulnerabilities,
          securityToIssueSeverity v.severity = S))) := by
  refine ⟨fun result => rfl, fun result S => ⟨_, rfl, ?_⟩⟩
  have hsum : ∀ p q r : Nat, 0 < p + q + r ↔ (0 < p ∨ 0 < q ∨ 0 < r) := fun p q r => by omega
  simp only [gt_iff_lt, decide_eq_true_eq]
  rw [← List.countP_eq_length_filter, ← List.countP_eq_length_filter,
    ← List.countP_eq_length_filter, hsum]
  simp [List.countP_pos_iff, matchesSeverity]

/-- C4: the vulnerability-to-finding severity mapping is the fixed table
critical→critical, high→performance, moderate→best-practice, low→info; for a
scan result whose only content is one high-severity vulnerability,
evaluating the fail-on policy at `performance` fails with
`vulnerabilityMatches = 1` and zero issue/dependency matches, while
evaluating it at `critical` does not fail. -/
theorem C4_high_vuln_maps_to_performance :
    (securityToIssueSeverity .critical = .critical ∧
     securityToIssueSeverity .high = .performance ∧
     securityToIssueSeverity .moderate = .bestPractice ∧
     securityToIssueSeverity .low = .info) ∧
    (∀ (score timeTaken : Int) (stats : ProjectStats) (summary : SecuritySummary)
       (v : SecurityVulnerability), v.severity = .high →
      ∃ outP outC,
        evaluateFailOnPolicy ⟨score, timeTaken, [], stats, [], ⟨[v], summary⟩⟩
          (some .performance) = some outP ∧
        outP.shouldFail = true ∧ outP.vulnerabilityMatches = 1 ∧
        outP.issueMatches = 0 ∧ outP.dependencyMatches = 0 ∧
        evaluateFailOnPolicy ⟨score, timeTaken, [], stats, [], ⟨[v], summary⟩⟩
          (some .critical) = some outC ∧
        outC.shouldFail = false) := by
  refine ⟨⟨rfl, rfl, rfl, rfl⟩, ?_⟩
  intro score timeTaken stats summary v hv
  refine ⟨_, _, rfl, ?_, ?_, ?_, ?_, rfl, ?_⟩ <;>
    (simp [evaluateFailOnPolicy, matchesSeverity, hv, securityToIssueSeverity, List.filter] <;>
      rfl)

/-- Witness for C4 at a concrete input. -/
theorem C4_high_vuln_maps_to_performance_witness :
    ∃ outP outC,
      evaluateFailOnPolicy ⟨100, 10, [], baseScanResult.stats, [],
        ⟨[highVuln], ⟨1, 0, 1, 0, 0⟩⟩⟩ (some .performance) = some outP ∧
      outP.shouldFail = true ∧ outP.vulnerabilityMatches = 1 ∧
      outP.issueMatches = 0 ∧ outP.dependencyMatches = 0 ∧
      evaluateFailOnPolicy ⟨100, 10, [], baseScanResult.stats, [],
        ⟨[highVuln], ⟨1, 0, 1, 0, 0⟩⟩⟩ (some .critical) = some outC ∧
      outC.shouldFail = false :=
  C4_high_vuln_maps_to_performance.2 100 10 baseScanResult.stats ⟨1, 0, 1, 0, 0⟩ highVuln rfl

/-! ### Scoring lemmas and theorems -/

theorem foldl_sub_eq {α : Type} (f : α → Int) :
    ∀ (l : List α) (s0 : Int), l.foldl (fun s x => s - f x) s0 = s0 - (l.map f).sum := by
  intro l
  induction l with
  | nil => intro s0; simp
  | cons a l ih =>
    intro s0
    simp only [List.foldl_cons, List.map_cons, List.sum_cons, ih]
    ring

theorem calculateScore_eq_formula (issues : List TriageIssue)
    (depIssues : List DependencyIssue) (securityAudit : SecurityAuditResult)
    (stats : ProjectStats) :
    calculateScore issues depIssues securityAudit stats =
      max 0 (min 100 (100 - issuePenaltyTotal issues - depPenaltyTotal depIssues
        - securityPenalty securityAudit - clientRatioPenalty stats)) := by
  simp only [calculateScore, clientRatioPenalty, issuePenaltyTotal, depPenaltyTotal,
    securityPenalty]
  rw [foldl_sub_eq (fun issue : TriageIssue => SCORE_PENALTIES issue.severity),
    foldl_sub_eq (fun dep : DependencyIssue => SCORE_PENALTIES dep.severity)]
  split_ifs <;> (congr 1; ring_nf)

/-- C1 counterexample: on a Next.js project with a 0.9 client-component
ratio and no findings at all, `calculateScore` returns 95, not the 100 the
claim's penalty formula (which has no client-ratio term) computes. -/
theorem C1_counterexample_client_ratio :
    calculateScore [] [] emptySecurityAudit statsHighClientRatio = 95 ∧
    claimedScoreFormula [] [] emptySecurityAudit = 100 ∧
    calculateScore [] [] emptySecurityAudit statsHighClientRatio ≠
      claimedScoreFormula [] [] emptySecurityAudit := by
  have h1 : calculateScore [] [] emptySecurityAudit statsHighClientRatio = 95 := by
    norm_num [calculateScore, statsHighClientRatio, emptySecurityAudit, jsTruthyStr,
      List.isEmpty, Int.min_def, Int.max_def]
  have h2 : claimedScoreFormula [] [] emptySecurityAudit = 100 := by decide
  exact ⟨h1, h2, by rw [h1, h2]; decide⟩

/-- C1 (amended): the score is an integer in [0,100], equal to 100 minus the
per-finding, per-dependency-issue and security penalties minus the
conditional client-component-ratio penalty, clamped to [0,100]; zero
findings yield 100 whenever the ratio penalty does not apply, and
2 critical + 1 performance findings with nothing else yield 77. -/
theorem C1_calculateScore_formula :
    (∀ (issues : List TriageIssue) (depIssues : List DependencyIssue)
        (securityAudit : SecurityAuditResult) (stats : ProjectStats),
      calculateScore issues depIssues securityAudit stats =
        max 0 (min 100 (100 - issuePenaltyTotal issues - depPenaltyTotal depIssues
          - securityPenalty securityAudit - clientRatioPenalty stats)) ∧
      0 ≤ calculateScore issues depIssues securityAudit stats ∧
      calculateScore issues depIssues securityAudit stats ≤ 100) ∧
    (∀ stats : ProjectStats, clientRatioPenalty stats = 0 →
      calculateScore [] [] emptySecurityAudit stats = 100) ∧
    (∀ stats : ProjectStats, clientRatioPenalty stats = 0 →
      calculateScore [sampleCriticalIssue, sampleCriticalIssue, samplePerformanceIssue] []
        emptySecurityAudit stats = 77) := by
  refine ⟨?_, ?_, ?_⟩
  · intro issues depIssues securityAudit stats
    refine ⟨calculateScore_eq_formula issues depIssues securityAudit stats, ?_, ?_⟩
    · rw [calculateScore_eq_formula]
      exact le_max_left _ _
    · rw [calculateScore_eq_formula]
      exact max_le (by norm_num) (min_le_left _ _)
  · intro stats h
    rw [calculateScore_eq_formula, h]
    decide
  · intro stats h
    rw [calculateScore_eq_formula, h]
    decide

/-- Witness for C1's amended claim at concrete inputs. -/
theorem C1_calculateScore_formula_witness :
    calculateScore [] [] emptySecurityAudit baseScanResult.stats = 100 ∧
    calculateScore [sampleCriticalIssue, sampleCriticalIssue, samplePerformanceIssue] []
      emptySecurityAudit baseScanResult.stats = 77 :=
  ⟨C1_calculateScore_formula.2.1 baseScanResult.stats (by decide),
   C1_calculateScore_formula.2.2 baseScanResult.stats (by decide)⟩

/-! ### Stability of the severity sort -/

theorem filter_orderedInsert_eq_key (s : Severity) (x : TriageIssue) (hx : x.severity = s) :
    ∀ l : List TriageIssue,
      (List.orderedInsert sevLE x l).filter (fun i => i.severity == s)
        = x :: l.filter (fun i => i.severity == s) := by
  intro l
  induction l with
  | nil => simp [List.orderedInsert, hx]
  | cons y ys ih =>
    by_cases h : sevLE x y
    · simp [List.orderedInsert, h, hx]
    · have hy : (y.severity == s) = false := by
        by_cases hys : y.severity = s
        · exact absurd (le_of_eq (by rw [hx, hys]) : sevLE x y) h
        · simp [hys]
      simp [List.orderedInsert, h, hy, ih]

theorem filter_orderedInsert_ne_key (s : Severity) (x : TriageIssue) (hx : ¬x.severity = s) :
    ∀ l : List TriageIssue,
      (List.orderedInsert sevLE x l).filter (fun i => i.severity == s)
        = l.filter (fun i => i.severity == s) := by
  intro l
  induction l with
  | nil => simp [List.orderedInsert, hx]
  | cons y ys ih =>
    by_cases h : sevLE x y
    · simp [List.orderedInsert, h, hx]
    · simp [List.orderedInsert, h, List.filter_cons, ih]

theorem filter_insertionSort_sevLE (s : Severity) :
    ∀ l : List TriageIssue,
      (List.insertionSort sevLE l).filter (fun i => i.severity == s)
        = l.filter (fun i => i.severity == s) := by
  intro l
  induction l with
  | nil => rfl
  | cons x l ih =>
    simp only [List.insertionSort]
    by_cases hx : x.severity = s
    · rw [filter_orderedInsert_eq_key s x hx _, ih]
      simp [hx]
    · rw [filter_orderedInsert_ne_key s x hx _, ih]
      simp [hx]

/-- C2: the aggregated issue list is sorted by severity ordinal
critical(0) < performance(1) < best-practice(2) < info(3), and for every
severity the equal-severity findings appear exactly in their order within
the concatenated input sequence (oxlint, tsconfig, async-client, console,
vercel-rule issues). -/
theorem C2_issues_sorted_and_stable (oxlintResult : OxlintScanResult)
    (depIssues : List DependencyIssue) (tsConfigResult : TsConfigCheckResult)
    (projectStats : ProjectStats) (asyncIssues consoleIssues vercelIssues : List TriageIssue)
    (securityAudit : SecurityAuditResult) (timeTaken : Int) :
    List.Sorted sevLE
      (diagnoseAggregate oxlintResult depIssues tsConfigResult projectStats
        asyncIssues consoleIssues vercelIssues securityAudit timeTaken).issues ∧
    (∀ s : Severity,
      ((diagnoseAggregate oxlintResult depIssues tsConfigResult projectStats
        asyncIssues consoleIssues vercelIssues securityAudit timeTaken).issues.filter
          (fun i => i.severity == s))
        = ((oxlintResult.issues ++ tsConfigResult.issues ++ asyncIssues
            ++ consoleIssues ++ vercelIssues).filter (fun i => i.severity == s))) := by
  constructor
  · exact List.sorted_insertionSort sevLE _
  · intro s
    exact filter_insertionSort_sevLE s _

/-- C9: whenever the external linter reports zero scanned files, the
aggregated result's `stats.totalFiles` is the project-stats sweep's own
file count. -/
theorem C9_totalFiles_fallback (oxlintResult : OxlintScanResult)
    (depIssues : List DependencyIssue) (tsConfigResult : TsConfigCheckResult)
    (projectStats : ProjectStats) (asyncIssues consoleIssues vercelIssues : List TriageIssue)
    (securityAudit : SecurityAuditResult) (timeTaken : Int)
    (h : oxlintResult.fileCount = 0) :
    (diagnoseAggregate oxlintResult depIssues tsConfigResult projectStats
      asyncIssues consoleIssues vercelIssues securityAudit timeTaken).stats.totalFiles
      = projectStats.totalFiles := by
  simp [diagnoseAggregate, h]

/-- Witness for C9: the linter saw 0 files while the sweep counted 42. -/
theorem C9_totalFiles_fallback_witness :
    (diagnoseAggregate ⟨[], 0⟩ [] tsConfigDefault statsWith42Files [] [] []
      emptySecurityAudit 0).stats.totalFiles = 42 :=
  C9_totalFiles_fallback ⟨[], 0⟩ [] tsConfigDefault statsWith42Files [] [] []
    emptySecurityAudit 0 rfl

/-! ### Substring lemmas -/

theorem isPrefixOf_self_append : ∀ (n t : JStr), n.isPrefixOf (n ++ t) = true := by
  intro n
  induction n with
  | nil => intro t; simp [List.isPrefixOf]
  | cons c n ih => intro t; simp [List.isPrefixOf, ih]

theorem containsSub_here : ∀ (n t : JStr), containsSub (n ++ t) n = true := by
  intro n t
  match n, t with
  | [], [] => rfl
  | [], c :: t => simp [containsSub, List.isPrefixOf]
  | c :: n, t => simp [containsSub, isPrefixOf_self_append]

theorem containsSub_append_left (p : JStr) :
    ∀ (hay needle : JStr), containsSub hay needle = true →
      containsSub (p ++ hay) needle = true := by
  induction p with
  | nil => intro hay needle h; simpa using h
  | cons c p ih =>
    intro hay needle h
    have := ih hay needle h
    simp [containsSub, this]

/-! ### `async-parallel` lemmas and theorems -/

theorem asyncParallelPairs_nil_of_nomatch (filePath : JStr) :
    ∀ (l : List JStr) (i : Nat), (∀ x ∈ l, awaitAssignVar (jsTrim x) = none) →
      asyncParallelPairs filePath i l = [] := by
  intro l
  induction l with
  | nil => intro i _; rfl
  | cons x rest ih =>
    intro i h
    match rest, ih with
    | [], _ => rfl
    | y :: t, ih =>
      have hx : awaitAssignVar (jsTrim x) = none := h x (by simp)
      have ht : ∀ z ∈ y :: t, awaitAssignVar (jsTrim z) = none :=
        fun z hz => h z (by simp [hz])
      simp [asyncParallelPairs, asyncParallelIssueAt, hx, ih i.succ ht]

theorem asyncParallelPairs_append_of_nomatch (filePath : JStr) :
    ∀ (p rest : List JStr) (i : Nat), (∀ x ∈ p, awaitAssignVar (jsTrim x) = none) →
      asyncParallelPairs filePath i (p ++ rest)
        = asyncParallelPairs filePath (i + p.length) rest := by
  intro p
  induction p with
  | nil => intro rest i _; rfl
  | cons x p ih =>
    intro rest i h
    have hx : awaitAssignVar (jsTrim x) = none := h x (by simp)
    have hp : ∀ z ∈ p, awaitAssignVar (jsTrim z) = none := fun z hz => h z (by simp [hz])
    match hpr : p ++ rest with
    | [] =>
      rcases List.append_eq_nil.mp hpr with ⟨hp0, hr0⟩
      subst hp0 hr0
      rfl
    | y :: t =>
      calc asyncParallelPairs filePath i (x :: (p ++ rest))
          = asyncParallelPairs filePath i (x :: y :: t) := by rw [hpr]
        _ = (asyncParallelIssueAt filePath i x y).toList
            ++ asyncParallelPairs filePath (i + 1) (y :: t) := rfl
        _ = asyncParallelPairs filePath (i + 1) (p ++ rest) := by
            simp [asyncParallelIssueAt, hx, hpr]
        _ = asyncParallelPairs filePath (i + 1 + p.length) rest := ih rest (i + 1) hp
        _ = asyncParallelPairs filePath (i + (x :: p).length) rest := by
            simp [List.length_cons]; ring_nf

/-- C5: in a file whose split lines contain exactly one adjacent pair of
`const/let/var x = await …` assignment lines (no other line matches the
pattern), the `async-parallel` rule emits exactly one critical finding whose
message contains both captured variable names and recommends `Promise.all`
— when the second (trimmed) line does not contain the first variable's name
as a substring — and emits nothing at all when it does. -/
theorem C5_async_parallel_pair (filePath content : JStr) (p s : List JStr)
    (a b v1 v2 : JStr)
    (hsplit : splitOnNl content = p ++ a :: b :: s)
    (ha : awaitAssignVar (jsTrim a) = some v1)
    (hb : awaitAssignVar (jsTrim b) = some v2)
    (hp : ∀ x ∈ p, awaitAssignVar (jsTrim x) = none)
    (hs : ∀ x ∈ s, awaitAssignVar (jsTrim x) = none) :
    (containsSub (jsTrim b) v1 = false →
      ∃ issue, asyncParallelCheck filePath content = [issue] ∧
        issue.severity = .critical ∧
        containsSub issue.message v1 = true ∧
        containsSub issue.message v2 = true ∧
        containsSub issue.message (("Promise.all").data) = true) ∧
    (containsSub (jsTrim b) v1 = true →
      asyncParallelCheck filePath content = []) := by
  have htail : asyncParallelPairs filePath (p.length + 1) (b :: s) = [] := by
    match s, hs with
    | [], _ => rfl
    | s0 :: t, hs =>
      have hs0 : awaitAssignVar (jsTrim s0) = none := hs s0 (by simp)
      have ht : asyncParallelPairs filePath (p.length + 2) (s0 :: t) = [] :=
        asyncParallelPairs_nil_of_nomatch filePath (s0 :: t) _ hs
      simp [asyncParallelPairs, asyncParallelIssueAt, hb, hs0, ht]
  have hmain : asyncParallelCheck filePath content
      = (asyncParallelIssueAt filePath p.length a b).toList := by
    unfold asyncParallelCheck
    rw [hsplit, asyncParallelPairs_append_of_nomatch filePath p _ 0 hp]
    show (asyncParallelIssueAt filePath (0 + p.length) a b).toList
        ++ asyncParallelPairs filePath (0 + p.length + 1) (b :: s) = _
    rw [Nat.zero_add, htail, List.append_nil]
  constructor
  · intro hnc
    have hissue : asyncParallelIssueAt filePath p.length a b = some
        { severity := .critical
          rule := ("async-parallel").data
          message := ("Sequential independent awaits — use Promise.all([").data ++ v1
            ++ (", ").data ++ v2 ++ ("]) instead").data
          help := some ("Independent async operations should run in parallel with Promise.all()").data
          file := filePath
          line := p.length + 1
          column := 1
          url := some asyncParallelUrl } := by
      simp [asyncParallelIssueAt, ha, hb, hnc]
    refine ⟨_, by rw [hmain, hissue]; rfl, rfl, ?_, ?_, ?_⟩
    · have h1 := containsSub_append_left
        (("Sequential independent awaits — use Promise.all([").data) _ v1
        (containsSub_here v1 ((", ").data ++ (v2 ++ ("]) instead").data)))
      simpa [List.append_assoc] using h1
    · have h2 := containsSub_here v2 (("]) instead").data)
      have h3 := containsSub_append_left ((", ").data) _ _ h2
      have h4 := containsSub_append_left v1 _ _ h3
      have h5 := containsSub_append_left
        (("Sequential independent awaits — use Promise.all([").data) _ _ h4
      simpa [List.append_assoc] using h5
    · have hsplitlit : ("Sequential independent awaits — use Promise.all([").data
          = ("Sequential independent awaits — use ").data
            ++ ((("Promise.all").data) ++ (("([").data)) := by decide
      have h6 := containsSub_append_left (("Sequential independent awaits — use ").data) _
        (("Promise.all").data)
        (containsSub_here (("Promise.all").data)
          ((("([").data) ++ (v1 ++ ((", ").data ++ (v2 ++ ("]) instead").data)))))
      rw [hsplitlit]
      simpa [List.append_assoc] using h6
  · intro hc
    have hissue : asyncParallelIssueAt filePath p.length a b = none := by
      simp [asyncParallelIssueAt, ha, hb, hc]
    rw [hmain, hissue]
    rfl

/-- Witness for C5 at concrete two-line files. -/
theorem C5_async_parallel_pair_witness :
    (∃ issue, asyncParallelCheck (("a.ts").data)
        (("const x1 = await f();\nconst y2 = await g();").data) = [issue] ∧
      issue.severity = .critical ∧
      containsSub issue.message (("x1").data) = true ∧
      containsSub issue.message (("y2").data) = true ∧
      containsSub issue.message (("Promise.all").data) = true) ∧
    asyncParallelCheck (("a.ts").data)
      (("const a = await f();\nconst b = await g();").data) = [] :=
  ⟨(C5_async_parallel_pair (("a.ts").data)
      (("const x1 = await f();\nconst y2 = await g();").data) [] []
      (("const x1 = await f();").data) (("const y2 = await g();").data)
      (("x1").data) (("y2").data)
      (by decide) (by decide) (by decide) (by simp) (by simp)).1 (by decide),
   (C5_async_parallel_pair (("a.ts").data)
      (("const a = await f();\nconst b = await g();").data) [] []
      (("const a = await f();").data) (("const b = await g();").data)
      (("a").data) (("b").data)
      (by decide) (by decide) (by decide) (by simp) (by simp)).2 (by decide)⟩

/-! ### Dependency-checker lemmas and theorems -/

theorem versionMismatchesOf_append (a b : List DependencyIssue) :
    versionMismatchesOf (a ++ b) = versionMismatchesOf a ++ versionMismatchesOf b := by
  simp [versionMismatchesOf]

theorem versionMismatchesOf_depKeyIssues (used : List JStr) :
    ∀ l, versionMismatchesOf (depKeyIssues used l) = [] := by
  intro l
  induction l with
  | nil => rfl
  | cons x rest ih =>
    obtain ⟨name, ver⟩ := x
    rw [depKeyIssues, versionMismatchesOf_append, versionMismatchesOf_append, ih]
    split_ifs <;> simp [versionMismatchesOf, List.filter] <;> first | rfl | exact ⟨rfl, rfl⟩

theorem versionMismatchesOf_devDepKeyIssues (used : List JStr) :
    ∀ l, versionMismatchesOf (devDepKeyIssues used l) = [] := by
  intro l
  induction l with
  | nil => rfl
  | cons x rest ih =>
    obtain ⟨name, ver⟩ := x
    rw [devDepKeyIssues, versionMismatchesOf_append, ih]
    split_ifs <;> (simp [versionMismatchesOf, List.filter]; try rfl)

theorem versionMismatchesOf_checkDependencies (pkg : PackageManifest)
    (used : List JStr) (pmLs : JStr) :
    versionMismatchesOf (checkDependenciesPure pkg used pmLs)
      = versionMismatchesOf (versionMismatchIssues pkg.dependencies) := by
  rw [checkDependenciesPure, versionMismatchesOf_append, versionMismatchesOf_append,
    versionMismatchesOf_append, versionMismatchesOf_depKeyIssues,
    versionMismatchesOf_devDepKeyIssues]
  split_ifs <;> (simp [versionMismatchesOf, List.filter]; try rfl)

/-- C7 counterexample: a manifest declaring `"react": ""` and
`"react-dom": "18"` declares both packages and their stripped versions
differ, yet the checker emits no version-mismatch issue, because JS
truthiness makes `deps.react &&` fail on the empty string. -/
theorem C7_counterexample_empty_version :
    lookupDep emptyVersionManifest.dependencies (("react").data) = some [] ∧
    lookupDep emptyVersionManifest.dependencies (("react-dom").data) = some (("18").data) ∧
    stripRangeOperators [] ≠ stripRangeOperators (("18").data) ∧
    versionMismatchesOf (checkDependenciesPure emptyVersionManifest [] []) = [] := by
  refine ⟨by decide, by decide, by decide, by decide⟩

/-- C7 (amended): for every manifest declaring both react and react-dom in
dependencies with non-empty version strings, the checker emits exactly one
critical version-mismatch issue iff the two versions differ after deleting
the range-operator characters `^ ~ > = <`; with either package absent (or
declared with an empty version string, which JS truthiness treats the same
way) no version-mismatch issue is emitted; react `^18.2.0` with react-dom
`~18.1.0` yields exactly the one critical mismatch issue. -/
theorem C7_version_mismatch_exact :
    (∀ (pkg : PackageManifest) (used : List JStr) (pmLs : JStr) (r d : JStr),
      lookupDep pkg.dependencies (("react").data) = some r →
      lookupDep pkg.dependencies (("react-dom").data) = some d →
      r ≠ [] → d ≠ [] →
      versionMismatchesOf (checkDependenciesPure pkg used pmLs) =
        (if stripRangeOperators r = stripRangeOperators d then []
         else [versionMismatchIssue r d])) ∧
    (∀ (pkg : PackageManifest) (used : List JStr) (pmLs : JStr),
      (lookupDep pkg.dependencies (("react").data) = none ∨
       lookupDep pkg.dependencies (("react-dom").data) = none) →
      versionMismatchesOf (checkDependenciesPure pkg used pmLs) = []) ∧
    (∀ r d : JStr, (versionMismatchIssue r d).severity = .critical) ∧
    versionMismatchesOf (checkDependenciesPure mismatchManifest [] []) =
      [versionMismatchIssue (("^18.2.0").data) (("~18.1.0").data)] := by
  refine ⟨?_, ?_, fun r d => rfl, by decide⟩
  · intro pkg used pmLs r d hr hd hrne hdne
    rw [versionMismatchesOf_checkDependencies]
    simp only [versionMismatchIssues, hr, hd]
    have h1 : (r.isEmpty || d.isEmpty) = false := by
      cases r with
      | nil => exact absurd rfl hrne
      | cons c cs =>
        cases d with
        | nil => exact absurd rfl hdne
        | cons e es => rfl
    rw [h1, if_neg (by decide : ¬(false = true))]
    split_ifs with h2
    · rfl
    · rfl
  · intro pkg used pmLs h
    rw [versionMismatchesOf_checkDependencies, versionMismatchIssues]
    rcases h with h | h
    · rw [h]; rfl
    · rw [h]
      cases lookupDep pkg.dependencies (("react").data) <;> rfl

/-- Witness for C7's amended claim at the spec's concrete manifest and at a
manifest missing react-dom. -/
theorem C7_version_mismatch_exact_witness :
    versionMismatchesOf (checkDependenciesPure mismatchManifest [] []) =
      (if stripRangeOperators (("^18.2.0").data) = stripRangeOperators (("~18.1.0").data)
       then []
       else [versionMismatchIssue (("^18.2.0").data) (("~18.1.0").data)]) ∧
    versionMismatchesOf (checkDependenciesPure reactOnlyManifest [] []) = [] :=
  ⟨C7_version_mismatch_exact.1 mismatchManifest [] [] (("^18.2.0").data) (("~18.1.0").data)
      (by decide) (by decide) (by decide) (by decide),
   C7_version_mismatch_exact.2.1 reactOnlyManifest [] [] (Or.inr (by decide))⟩

/-! ### `server-auth-actions` lemmas and theorems -/

theorem splitOnNl_head_prefix :
    ∀ s : JStr, ∃ t v, splitOnNl s = t :: v ∧ ∃ w, s = t ++ w := by
  intro s
  induction s with
  | nil => exact ⟨[], [], rfl, [], rfl⟩
  | cons c rest ih =>
    obtain ⟨t, v, heq, w, hw⟩ := ih
    by_cases hc : c = '\n'
    · subst hc
      exact ⟨[], splitOnNl rest, by simp [splitOnNl], '\n' :: rest, rfl⟩
    · refine ⟨c :: t, v, ?_, w, by rw [hw]; rfl⟩
      simp [splitOnNl, hc, heq]

theorem splitOnNl_mem_infix :
    ∀ (s l : JStr), l ∈ splitOnNl s → ∃ u v, s = u ++ l ++ v := by
  intro s
  induction s with
  | nil =>
    intro l hl
    simp [splitOnNl] at hl
    exact ⟨[], [], by simp [hl]⟩
  | cons c rest ih =>
    intro l hl
    by_cases hc : c = '\n'
    · subst hc
      simp only [splitOnNl, if_pos rfl] at hl
      rcases List.mem_cons.mp hl with h | h
      · exact ⟨[], '\n' :: rest, by simp [h]⟩
      · obtain ⟨u, v, huv⟩ := ih l h
        exact ⟨'\n' :: u, v, by simp [huv]⟩
    · obtain ⟨t, tv, heq, w, hw⟩ := splitOnNl_head_prefix rest
      have hsplit : splitOnNl (c :: rest) = (c :: t) :: tv := by
        simp [splitOnNl, hc, heq]
      rw [hsplit] at hl
      rcases List.mem_cons.mp hl with h | h
      · exact ⟨[], w, by simp [h, hw]⟩
      · have hmem : l ∈ splitOnNl rest := by rw [heq]; exact List.mem_cons_of_mem t h
        obtain ⟨u, v, huv⟩ := ih l hmem
        exact ⟨c :: u, v, by simp [huv]⟩

theorem jsTrim_infix (l : JStr) : ∃ u v, l = u ++ jsTrim l ++ v := by
  refine ⟨l.takeWhile jsSpace, ((l.dropWhile jsSpace).reverse.takeWhile jsSpace).reverse, ?_⟩
  unfold jsTrim
  conv_lhs => rw [← List.takeWhile_append_dropWhile (p := jsSpace) (l := l)]
  rw [List.append_assoc]
  congr 1
  conv_lhs => rw [← List.reverse_reverse (l.dropWhile jsSpace),
    ← List.takeWhile_append_dropWhile (p := jsSpace) (l := (l.dropWhile jsSpace).reverse)]
  rw [List.reverse_append]

theorem containsSub_sandwich (u n v : JStr) : containsSub (u ++ n ++ v) n = true := by
  have h := containsSub_append_left u (n ++ v) n (containsSub_here n v)
  simpa [List.append_assoc] using h

theorem isFileLevelGo_directive :
    ∀ (l : List JStr) (idx : Nat), isFileLevelGo idx l = true →
      ∃ line ∈ l, jsTrim line = useServerSingle ∨ jsTrim line = useServerDouble := by
  intro l
  induction l with
  | nil => intro idx h; exact absurd h (by simp [isFileLevelGo])
  | cons line rest ih =>
    intro idx h
    rw [isFileLevelGo, Bool.or_eq_true] at h
    rcases h with h | h
    · refine ⟨line, by simp, ?_⟩
      split_ifs at h with hskip
      simp only [Bool.and_eq_true, Bool.or_eq_true, beq_iff_eq] at h
      exact h.2
    · obtain ⟨x, hx, hdir⟩ := ih (idx + 1) h
      exact ⟨x, by simp [hx], hdir⟩

theorem contains_of_isFileLevel (content : JStr)
    (h : isFileLevelUseServer (splitOnNl content) = true) :
    (containsSub content useServerSingle || containsSub content useServerDouble) = true := by
  obtain ⟨line, hmem, hdir⟩ := isFileLevelGo_directive (splitOnNl content) 0 h
  obtain ⟨u, v, huv⟩ := splitOnNl_mem_infix content line hmem
  obtain ⟨a, b, hab⟩ := jsTrim_infix line
  rw [Bool.or_eq_true]
  rcases hdir with hd | hd
  · refine Or.inl ?_
    rw [huv, hab, hd]
    have : u ++ (a ++ useServerSingle ++ b) ++ v
        = (u ++ a) ++ useServerSingle ++ (b ++ v) := by simp [List.append_assoc]
    rw [this]
    exact containsSub_sandwich _ _ _
  · refine Or.inr ?_
    rw [huv, hab, hd]
    have : u ++ (a ++ useServerDouble ++ b) ++ v
        = (u ++ a) ++ useServerDouble ++ (b ++ v) := by simp [List.append_assoc]
    rw [this]
    exact containsSub_sandwich _ _ _

theorem serverAuthIssueAt_line (filePath : JStr) (lines : List JStr) :
    ∀ j iss, serverAuthIssueAt filePath lines j = some iss → iss.line = j + 1 := by
  intro j iss h
  unfold serverAuthIssueAt at h
  revert h
  cases hfn : exportAsyncFn (lines.getD j []) with
  | none => intro h; exact absurd h (by simp)
  | some name =>
    intro h
    dsimp only at h
    by_cases h1 : (!mutationTest name) = true
    · rw [if_pos h1] at h; exact absurd h (by simp)
    · rw [if_neg h1] at h
      by_cases h2 : authScan lines j = true
      · rw [if_pos h2] at h; exact absurd h (by simp)
      · rw [if_neg h2] at h
        obtain rfl := Option.some.inj h
        rfl

theorem filter_line_filterMap_range (f : Nat → Option TriageIssue)
    (hline : ∀ j iss, f j = some iss → iss.line = j + 1) :
    ∀ (n i : Nat), i < n →
      ((List.range n).filterMap f).filter (fun iss => iss.line == i + 1)
        = (f i).toList := by
  intro n
  induction n with
  | zero => intro i hi; exact absurd hi (Nat.not_lt_zero i)
  | succ n ih =>
    intro i hi
    rw [List.range_succ, List.filterMap_append, List.filter_append]
    have hsingle : ([n].filterMap f).filter (fun iss => iss.line == i + 1)
        = if n = i then (f n).toList else [] := by
      cases hfn : f n with
      | none => simp [List.filterMap, hfn]
      | some iss =>
        have hl := hline n iss hfn
        by_cases hni : n = i
        · subst hni; simp [List.filterMap, hfn, List.filter, hl]
        · have hb : (iss.line == i + 1) = false := by
            rw [hl]; exact beq_eq_false_iff_ne.mpr (by omega)
          simp [List.filterMap, hfn, List.filter, hb, hni]
    rcases Nat.lt_succ_iff_lt_or_eq.mp hi with h | h
    · rw [ih i h, hsingle, if_neg (by omega)]
      simp
    · subst h
      have h0 : ((List.range i).filterMap f).filter (fun iss => iss.line == i + 1) = [] := by
        refine List.filter_eq_nil_iff.mpr ?_
        intro iss hiss
        obtain ⟨a, ha, hfa⟩ := List.mem_filterMap.mp hiss
        have hl := hline a iss hfa
        have ha' : a < i := List.mem_range.mp ha
        simp only [hl]
        exact (by simpa using beq_eq_false_iff_ne.mpr (show a + 1 ≠ i + 1 by omega))
      rw [h0, hsingle, if_pos rfl]
      simp

/-- C8 counterexample: with the `'use server'` directive preceded by five
blank lines it is the file's first non-blank line — within the first 5
non-blank lines, as the claim requires — and the file contains an exported
async mutation-named function with no authentication token in scan range,
yet the rule emits no finding, because the code's `idx < 5` window counts
raw line indices (blank lines included). -/
theorem C8_counterexample_blank_lines :
    specFileLevelUseServer (splitOnNl blankPaddedServerContent) = true ∧
    exportAsyncFn ((splitOnNl blankPaddedServerContent).getD 6 [])
      = some (("deleteUser").data) ∧
    mutationTest (("deleteUser").data) = true ∧
    authScan (splitOnNl blankPaddedServerContent) 6 = false ∧
    serverAuthCheck (("actions.ts").data) blankPaddedServerContent = [] := by
  refine ⟨by decide, by decide, by decide, by decide, by decide⟩

/-- C8 (amended): the rule emits findings only when the `'use server'`
directive sits file-level within the first 5 raw lines (blank and comment
lines consume that window); under that precondition, every exported async
function whose name matches the mutation-verb pattern yields exactly one
critical finding at its line if and only if the body scan (up to ~30 lines,
stopping at a later `export`) finds no authentication token. -/
theorem C8_server_auth_actions (filePath content : JStr) :
    (serverAuthCheck filePath content ≠ [] →
      isFileLevelUseServer (splitOnNl content) = true) ∧
    (isFileLevelUseServer (splitOnNl content) = true →
      ∀ (i : Nat) (name : JStr), i < (splitOnNl content).length →
        exportAsyncFn ((splitOnNl content).getD i []) = some name →
        mutationTest name = true →
        (serverAuthCheck filePath content).filter (fun iss => iss.line == i + 1)
          = (if authScan (splitOnNl content) i then []
             else [serverAuthIssue filePath name i])) ∧
    (∀ (fp fn : JStr) (i : Nat), (serverAuthIssue fp fn i).severity = .critical) := by
  refine ⟨?_, ?_, fun fp fn i => rfl⟩
  · intro hne
    by_contra hfl
    have hfl' : isFileLevelUseServer (splitOnNl content) = false := by
      cases hq : isFileLevelUseServer (splitOnNl content)
      · rfl
      · exact absurd hq hfl
    apply hne
    unfold serverAuthCheck
    cases hc : (containsSub content useServerSingle || containsSub content useServerDouble) with
    | false => simp [hc]
    | true => simp [hc, hfl']
  · intro hfl i name hi hfn hmut
    have hcont := contains_of_isFileLevel content hfl
    have hcheck : serverAuthCheck filePath content
        = (List.range (splitOnNl content).length).filterMap
            (fun j => serverAuthIssueAt filePath (splitOnNl content) j) := by
      unfold serverAuthCheck
      simp [hcont, hfl]
    rw [hcheck,
      filter_line_filterMap_range _ (serverAuthIssueAt_line filePath (splitOnNl content)) _ i hi]
    unfold serverAuthIssueAt
    rw [hfn]
    dsimp only
    rw [hmut]
    cases hAuth : authScan (splitOnNl content) i <;> simp [hAuth]

/-- Witness for C8 at a concrete unauthenticated server action. -/
theorem C8_server_auth_actions_witness :
    (serverAuthCheck (("a.ts").data) unauthedServerContent).filter
        (fun iss => iss.line == 1 + 1)
      = (if authScan (splitOnNl unauthedServerContent) 1 then []
         else [serverAuthIssue (("a.ts").data) (("createItem").data) 1]) :=
  (C8_server_auth_actions (("a.ts").data) unauthedServerContent).2.1 (by decide) 1
    (("createItem").data) (by decide) (by decide) (by decide)

/-! ### `composition-boolean-props` lemmas and theorems -/

theorem filterMap_range_unique {β : Type} (f : Nat → Option β) :
    ∀ (n k : Nat), k < n → (∀ j, j < n → j ≠ k → f j = none) →
      (List.range n).filterMap f = (f k).toList := by
  intro n
  induction n with
  | zero => intro k hk; exact absurd hk (Nat.not_lt_zero k)
  | succ n ih =>
    intro k hk hnone
    rw [List.range_succ, List.filterMap_append]
    rcases Nat.lt_succ_iff_lt_or_eq.mp hk with h | h
    · rw [ih k h (fun j hj hne => hnone j (by omega) hne)]
      have hn : f n = none := hnone n (by omega) (by omega)
      simp [List.filterMap, hn]
    · subst h
      have h0 : (List.range k).filterMap f = [] := by
        refine List.filterMap_eq_nil_iff.mpr ?_
        intro a ha
        have halt := List.mem_range.mp ha
        exact hnone a (by omega) (by omega)
      rw [h0]
      cases hfk : f k <;> simp [List.filterMap, hfk]

/-- C6: for a `.tsx`/`.jsx` file whose lines contain exactly one line
matching the props-type opening pattern, the `composition-boolean-props`
rule's output is exactly the (at most one) finding of that line's block,
and it emits exactly one finding iff the brace-matched block contains at
least 3 boolean-prefixed `: boolean` properties; concretely, the 3-field
block (`isLoading`, `isDisabled`, `hasError` plus one non-boolean field)
yields the single finding whose message enumerates all 3 names, and the
2-field block yields no finding. -/
theorem C6_composition_boolean_props :
    (∀ (filePath content : JStr) (k : Nat),
      ((".tsx").data.isSuffixOf filePath || (".jsx").data.isSuffixOf filePath) = true →
      k < (splitOnNl content).length →
      (∀ j, j < (splitOnNl content).length →
        (propsLineTest ((splitOnNl content).getD j []) = true ↔ j = k)) →
      compositionBooleanPropsCheck filePath content
          = (boolPropsIssueAt filePath (splitOnNl content) k).toList ∧
      ((compositionBooleanPropsCheck filePath content).length = 1 ↔
        3 ≤ (boolPropMatches (propsBlockAt (splitOnNl content) k)).length)) ∧
    compositionBooleanPropsCheck (("Button.tsx").data) buttonPropsContent3
      = [{ severity := .bestPractice
           rule := ("composition-boolean-props").data
           message := ("3 boolean props detected (isLoading, isDisabled, hasError) — use explicit variant components instead").data
           help := some ("Create separate ChannelComposer, ThreadComposer, EditComposer components rather than a single component with boolean switches").data
           file := ("Button.tsx").data
           line := 1
           column := 1
           url := some compositionBooleanPropsUrl }] ∧
    compositionBooleanPropsCheck (("Button.tsx").data) buttonPropsContent2 = [] := by
  refine ⟨?_, by decide, by decide⟩
  intro filePath content k hext hk huniq
  have hchk : compositionBooleanPropsCheck filePath content
      = (List.range (splitOnNl content).length).filterMap
          (fun i => boolPropsIssueAt filePath (splitOnNl content) i) := by
    unfold compositionBooleanPropsCheck
    rw [hext]
    simp
  have hnone : ∀ j, j < (splitOnNl content).length → j ≠ k →
      boolPropsIssueAt filePath (splitOnNl content) j = none := by
    intro j hj hne
    have hiff := huniq j hj
    have hfalse : propsLineTest ((splitOnNl content).getD j []) = false := by
      cases hq : propsLineTest ((splitOnNl content).getD j [])
      · rfl
      · exact absurd (hiff.mp hq) hne
    unfold boolPropsIssueAt
    rw [hfalse]
    rfl
  have h1 : compositionBooleanPropsCheck filePath content
      = (boolPropsIssueAt filePath (splitOnNl content) k).toList := by
    rw [hchk]
    exact filterMap_range_unique _ _ k hk hnone
  refine ⟨h1, ?_⟩
  rw [h1]
  have htk : propsLineTest ((splitOnNl content).getD k []) = true := (huniq k hk).mpr rfl
  unfold boolPropsIssueAt
  rw [htk]
  dsimp only
  by_cases h3 : 3 ≤ (boolPropMatches (propsBlockAt (splitOnNl content) k)).length
  · rw [if_pos h3]
    simpa using h3
  · rw [if_neg h3]
    simpa using h3

/-- Witness for C6's quantified part at the concrete 3-field props file. -/
theorem C6_composition_boolean_props_witness :
    compositionBooleanPropsCheck (("Button.tsx").data) buttonPropsContent3
      = (boolPropsIssueAt (("Button.tsx").data) (splitOnNl buttonPropsContent3) 0).toList ∧
    ((compositionBooleanPropsCheck (("Button.tsx").data) buttonPropsContent3).length = 1 ↔
      3 ≤ (boolPropMatches (propsBlockAt (splitOnNl buttonPropsContent3) 0)).length) :=
  C6_composition_boolean_props.1 (("Button.tsx").data) buttonPropsContent3 0
    (by decide) (by decide) (by decide)
